import Mathlib

/-!
# Verification of `secretstream.go` (cryptag/sodium)

Shallow embedding of the secretstream encoder/decoder from
`src/secretstream.go`.  Bytes are modelled as `Nat`, byte slices as
`List Nat`.  The underlying AEAD primitive
(`crypto_secretstream_xchacha20poly1305_*` from libsodium) is an external
collaborator; per the design document it is modelled as a black box with
the contract "seal(state, plaintext, ad, tag) -> ciphertext of length
plaintext + OVERHEAD, advancing the state" and "open(state, ciphertext,
ad) -> (plaintext, tag) or failure, advancing the state".  The model below
realises that contract with an injective frame encoding
`ctag :: plaintext ++ authenticator`, where the 16-byte authenticator is a
function of the state, the associated data, the plaintext and the tag, so
that open succeeds exactly on frames sealed from the matching state with
matching associated data.  Confidentiality of the encryption is outside
the verified contract and is not modelled.

The wrapped `io.Writer` sink is modelled as an accumulating byte buffer
whose writes succeed in full; the wrapped `io.Reader` source is modelled
as a list of nonempty chunks, each `Read` call returning up to the
requested number of bytes from the current chunk, and an end-of-source
error once the chunks are exhausted.
-/

/-- Key size constant of the external primitive
(`crypto_secretstream_xchacha20poly1305_keybytes`, 32). -/
def cryptoSecretStreamXChaCha20Poly1305KeyBytes : Nat := 32

/-- Header size constant of the external primitive
(`crypto_secretstream_xchacha20poly1305_headerbytes`, 24). -/
def cryptoSecretStreamXChaCha20Poly1305HeaderBytes : Nat := 24

/-- Per-frame overhead of the external primitive
(`crypto_secretstream_xchacha20poly1305_abytes`, 1 tag byte + 16 MAC
bytes). -/
def cryptoSecretStreamXChaCha20Poly1305ABytes : Nat := 17

/-- C-level tag constant `crypto_secretstream_xchacha20poly1305_tag_message` (0). -/
def cTagMessage : Nat := 0

/-- C-level tag constant `crypto_secretstream_xchacha20poly1305_tag_push` (1). -/
def cTagPush : Nat := 1

/-- C-level tag constant `crypto_secretstream_xchacha20poly1305_tag_rekey` (2). -/
def cTagRekey : Nat := 2

/-- C-level tag constant `crypto_secretstream_xchacha20poly1305_tag_final`
(push | rekey = 3). -/
def cTagFinal : Nat := 3

/-- `SecretStreamTag` from the source: the public tag enumeration, with
constants `SecretStreamTag_Message = 0`, `SecretStreamTag_Sync = 1`,
`SecretStreamTag_Rekey = 2` (an `iota` enumeration; the design document
asks for a closed variant).  Note it has no constructor for the
primitive's final tag. -/
inductive SecretStreamTag where
  | Message
  | Sync
  | Rekey
deriving DecidableEq

/-- `SecretStreamTag.fromCtag`: sets the receiver from a C tag; `push`
maps to `Sync`, `rekey` maps to `Rekey`, everything else (the `default`
case, which includes the final tag) maps to `Message`.  The Go receiver's
previous value is ignored, so this is a plain function of the C tag. -/
def SecretStreamTag.fromCtag (ctag : Nat) : SecretStreamTag :=
  if ctag = cTagPush then .Sync
  else if ctag = cTagRekey then .Rekey
  else .Message

/-- `SecretStreamTag.toCtag`: `Sync` maps to `push`, `Rekey` maps to
`rekey`, everything else (the `default` case) maps to `message`. -/
def SecretStreamTag.toCtag : SecretStreamTag → Nat
  | .Sync => cTagPush
  | .Rekey => cTagRekey
  | _ => cTagMessage

/-- The opaque evolving `crypto_secretstream_xchacha20poly1305_state`,
modelled as the key material derived from (key, header) plus a position
counter advanced by every seal/open. -/
structure StreamState where
  k : List Nat
  ctr : Nat
deriving DecidableEq

/-- State derivation shared by `init_push` and `init_pull`: both sides
derive the same initial state from (key, header). -/
def initState (key header : List Nat) : StreamState :=
  ⟨key ++ header, 0⟩

/-- The state advance performed by each seal/open call of the primitive. -/
def StreamState.next (st : StreamState) : StreamState :=
  ⟨st.k, st.ctr + 1⟩

/-- The 16-byte authenticator the modelled primitive appends: a function
of the current state, the associated data, the plaintext and the C tag,
so that opening fails whenever any of them differs from what was sealed. -/
def macTag (st : StreamState) (ad m : List Nat) (ctag : Nat) : List Nat :=
  List.replicate 16
    ((st.k.sum + 7 * st.ctr + 3 * ad.length + ad.sum + 5 * m.length + m.sum + 11 * ctag) % 256)

/-- `crypto_secretstream_xchacha20poly1305_push` (modelled): seals a
plaintext with associated data and a C tag, producing the frame
`ctag :: m ++ authenticator` of length `m.length + ABYTES` and advancing
the state.  In the black-box contract seal is fallible only on primitive
misuse, so the model makes it total (the `ErrUnknown` branch of the Go
callers is unreachable). -/
def ssPush (st : StreamState) (m ad : List Nat) (ctag : Nat) : List Nat × StreamState :=
  (ctag :: (m ++ macTag st ad m ctag), st.next)

/-- `crypto_secretstream_xchacha20poly1305_pull` (modelled): splits the
frame as `ctag :: m ++ authenticator`, recomputes the authenticator from
the current state and the supplied associated data, and succeeds exactly
when it matches, yielding the plaintext and the C tag.  The state
advances as a side effect of the call. -/
def ssPull (st : StreamState) (c ad : List Nat) : Option (List Nat × Nat) × StreamState :=
  let ctag := c.headD 0
  let body := c.drop 1
  let m := body.take (c.length - cryptoSecretStreamXChaCha20Poly1305ABytes)
  let tg := body.drop (c.length - cryptoSecretStreamXChaCha20Poly1305ABytes)
  if tg = macTag st ad m ctag then (some (m, ctag), st.next) else (none, st.next)

/-- Error values used by the source (`ErrInvalidState`, `ErrDecryptSS`,
`ErrUnknown`, `ErrInvalidHeader` from the package's error list, plus
`io.EOF`). -/
inductive SSErr where
  | invalidState
  | decryptSS
  | unknown
  | invalidHeader
  | eof
deriving DecidableEq

/-- The wrapped `io.Reader` source: a list of chunks; each `Read` call
delivers up to the requested count from the current chunk.  Chunks are
nonempty by convention (a Go reader is discouraged from returning zero
bytes with a nil error); an empty source returns the end-of-source
error. -/
abbrev ByteSource := List (List Nat)

/-- Total number of bytes a source can still deliver. -/
def totalBytes (src : ByteSource) : Nat :=
  (src.map List.length).sum

/-- One `Read` call on the chunked source with capacity `k`: returns the
bytes delivered, whether an error (end of source) occurred, and the
remaining source. -/
def sourceRead (src : ByteSource) (k : Nat) : List Nat × Bool × ByteSource :=
  match src with
  | [] => ([], true, [])
  | ch :: rest =>
      let taken := ch.take k
      let remain := ch.drop k
      (taken, false, if remain.isEmpty then rest else remain :: rest)

/-- Go's `Read(p)` fills `p` from index 0: copying `incoming` into the
scratch buffer `c` overwrites its front. -/
def listOverwrite (c incoming : List Nat) : List Nat :=
  incoming ++ c.drop incoming.length

/-- The decoder's frame-assembly loop (lines 211-220 of the source),
faithfully including its two quirks: the loop runs only while
`l < ABYTES` (not until the full frame is assembled), and each retry
reads into `c[:l]`, i.e. overwrites the front of the scratch buffer
instead of appending at offset `l`.  `fuel` is a totality device only:
every productive iteration consumes at least one source byte, so
`totalBytes src + 1` steps always suffice (see `readAccum`).  A read that
delivers no bytes means the source ended in this chunk model, upon which
the Go loop's next iteration observes the error and fails. -/
def readAccumF : Nat → ByteSource → List Nat → Nat → Bool → Option (List Nat × Nat) × ByteSource
  | 0, src, _, _, _ => (none, src)
  | fuel + 1, src, c, l, errFlag =>
    if cryptoSecretStreamXChaCha20Poly1305ABytes ≤ l then (some (c, l), src)
    else if errFlag then (none, src)
    else
      match sourceRead src l with
      | ([], _, s2) => (none, s2)
      | (b :: bs, e2, s2) =>
          readAccumF fuel s2 (listOverwrite c (b :: bs)) (l + (b :: bs).length) e2

/-- The assembly loop with its sufficient fuel. -/
def readAccum (src : ByteSource) (c : List Nat) (l : Nat) (errFlag : Bool) :
    Option (List Nat × Nat) × ByteSource :=
  readAccumF (totalBytes src + 1) src c l errFlag

/-- The read phase of `SecretStreamXCPDecoder.Read`: the initial
`e.in.Read(c)` into the zeroed scratch buffer of length `bl + ABYTES`,
followed by the assembly loop.  Returns the scratch buffer and the byte
count on success (`none` is the `ErrDecryptSS` exit), plus the remaining
source. -/
def readFrameBytes (src : ByteSource) (bl : Nat) : Option (List Nat × Nat) × ByteSource :=
  let scratch := List.replicate (bl + cryptoSecretStreamXChaCha20Poly1305ABytes) 0
  let r := sourceRead src (bl + cryptoSecretStreamXChaCha20Poly1305ABytes)
  readAccum r.2.2 (listOverwrite scratch r.1) r.1.length r.2.1

/-- `SecretStreamXCPEncoder`: output sink (accumulated bytes), header,
stream state, pending associated data, pending tag, terminal flag. -/
structure SecretStreamXCPEncoder where
  out : List Nat
  header : List Nat
  state : StreamState
  ad : List Nat
  tag : SecretStreamTag
  final : Bool
deriving DecidableEq

/-- `SecretStreamXCPDecoder`: input source, stream state, pending
associated data, last-observed tag, terminal flag. -/
structure SecretStreamXCPDecoder where
  src : ByteSource
  state : StreamState
  ad : List Nat
  tag : SecretStreamTag
  final : Bool
deriving DecidableEq

/-- Result of one `Read` call: the plaintext written into the caller's
buffer (empty when open fails, since the modelled primitive verifies the
authenticator before producing plaintext), the returned count `n`, and
the returned error. -/
structure ReadResult where
  buf : List Nat
  n : Nat
  err : Option SSErr
deriving DecidableEq

/-- `SecretStreamXCPEncoder.Header`. -/
def SecretStreamXCPEncoder.Header (e : SecretStreamXCPEncoder) : List Nat :=
  e.header

/-- `SecretStreamXCPEncoder.SetAdditionData`: stores the slice in the
encoder; nothing in the source ever clears it. -/
def SecretStreamXCPEncoder.SetAdditionData (e : SecretStreamXCPEncoder) (ad : List Nat) :
    SecretStreamXCPEncoder :=
  { e with ad := ad }

/-- `SecretStreamXCPEncoder.SetTag`. -/
def SecretStreamXCPEncoder.SetTag (e : SecretStreamXCPEncoder) (t : SecretStreamTag) :
    SecretStreamXCPEncoder :=
  { e with tag := t }

/-- `SecretStreamXCPEncoder.Write` (lines 122-142): rejects when the
terminal flag is set; otherwise seals `b` with the pending associated
data and pending tag and writes the frame to the sink, returning the
sink's count (the full frame length for the modelled sink). -/
def SecretStreamXCPEncoder.Write (e : SecretStreamXCPEncoder) (b : List Nat) :
    (Nat × Option SSErr) × SecretStreamXCPEncoder :=
  if e.final then ((0, some .invalidState), e)
  else
    let p := ssPush e.state b e.ad e.tag.toCtag
    ((p.1.length, none), { e with out := e.out ++ p.1, state := p.2 })

/-- `SecretStreamXCPEncoder.WriteAndClose` (lines 145-166): like `Write`
but seals with the final C tag unconditionally and sets the terminal
flag. -/
def SecretStreamXCPEncoder.WriteAndClose (e : SecretStreamXCPEncoder) (b : List Nat) :
    (Nat × Option SSErr) × SecretStreamXCPEncoder :=
  if e.final then ((0, some .invalidState), e)
  else
    let p := ssPush e.state b e.ad cTagFinal
    ((p.1.length, none), { e with out := e.out ++ p.1, state := p.2, final := true })

/-- `SecretStreamXCPEncoder.Close` (lines 169-186): seals a zero-length
plaintext with the final C tag and the pending associated data, writes
the authenticator-only frame and sets the terminal flag.  Faithful to the
source, it performs no terminal-flag check of its own. -/
def SecretStreamXCPEncoder.Close (e : SecretStreamXCPEncoder) :
    Option SSErr × SecretStreamXCPEncoder :=
  let p := ssPush e.state [] e.ad cTagFinal
  (none, { e with out := e.out ++ p.1, state := p.2, final := true })

/-- `MakeSecretStreamXCPEncoder`: derives the header and initial state
via the primitive's `init_push`.  The fresh random header produced by the
primitive comes from an external randomness source, passed here as the
`header` argument.  The key-size check (`checkTypedSize`, declared
outside this file's source) aborts the program rather than returning an
error and is not modelled. -/
def MakeSecretStreamXCPEncoder (key header : List Nat) : SecretStreamXCPEncoder :=
  { out := []
    header := header
    state := initState key header
    ad := []
    tag := .Message
    final := false }

/-- `SecretStreamXCPDecoder.Read` (lines 204-241): rejects when the
terminal flag is set; assembles a frame of up to `bl + ABYTES` bytes;
opens it with the pending associated data; computes `n = l - ABYTES` and
updates the last-observed tag unconditionally (on open failure the C tag
variable keeps its zero initialisation); returns `io.EOF` and sets the
terminal flag when the C tag is final. -/
def SecretStreamXCPDecoder.Read (d : SecretStreamXCPDecoder) (bl : Nat) :
    ReadResult × SecretStreamXCPDecoder :=
  if d.final then (⟨[], 0, some .invalidState⟩, d)
  else
    match readFrameBytes d.src bl with
    | (none, s2) => (⟨[], 0, some .decryptSS⟩, { d with src := s2 })
    | (some (c, l), s2) =>
        match ssPull d.state (c.take l) d.ad with
        | (some (m, ctag), st) =>
            (⟨m, l - cryptoSecretStreamXChaCha20Poly1305ABytes,
              if ctag = cTagFinal then some .eof else none⟩,
             { d with
               src := s2
               state := st
               tag := SecretStreamTag.fromCtag ctag
               final := decide (ctag = cTagFinal) })
        | (none, st) =>
            (⟨[], l - cryptoSecretStreamXChaCha20Poly1305ABytes, some .decryptSS⟩,
             { d with src := s2, state := st, tag := SecretStreamTag.fromCtag 0 })

/-- `SecretStreamXCPDecoder.SetAdditionData`: stores the slice in the
decoder; nothing in the source ever clears it. -/
def SecretStreamXCPDecoder.SetAdditionData (d : SecretStreamXCPDecoder) (ad : List Nat) :
    SecretStreamXCPDecoder :=
  { d with ad := ad }

/-- `SecretStreamXCPDecoder.Tag`. -/
def SecretStreamXCPDecoder.Tag (d : SecretStreamXCPDecoder) : SecretStreamTag :=
  d.tag

/-- `MakeSecretStreamXCPDecoder` (lines 251-264).  Modelled from the
spec: the header length validation lives in `checkTypedSize`, which is
declared outside `src/`; per the design document a header whose length is
not the protocol constant makes decoder construction fail with
`InvalidHeader` before any ciphertext frame is read.  On a well-sized
header the state is derived via the primitive's `init_pull` (total in the
black-box model, so its `ErrInvalidHeader` branch is not taken). -/
def MakeSecretStreamXCPDecoder (key : List Nat) (src : ByteSource) (header : List Nat) :
    Except SSErr SecretStreamXCPDecoder :=
  if header.length = cryptoSecretStreamXChaCha20Poly1305HeaderBytes then
    .ok { src := src, state := initState key header, ad := [], tag := .Message, final := false }
  else
    .error .invalidHeader

/-- The byte stream an encoder in state `st` with empty associated data
emits for the messages `msgs` (each with its tag, written via `Write`)
followed by `last` written via `WriteAndClose`. -/
def framesOf (st : StreamState) : List (List Nat × SecretStreamTag) → List Nat → List Nat
  | [], last => (ssPush st last [] cTagFinal).1
  | (m, t) :: rest, last =>
      (ssPush st m [] t.toCtag).1 ++ framesOf (ssPush st m [] t.toCtag).2 rest last

/-- Drive the encoder: set each message's tag, write it, and finish with
`WriteAndClose last`. -/
def encodeAll (e : SecretStreamXCPEncoder) :
    List (List Nat × SecretStreamTag) → List Nat → SecretStreamXCPEncoder
  | [], last => ((e.WriteAndClose last)).2
  | (m, t) :: rest, last => encodeAll (((e.SetTag t).Write m)).2 rest last

/-- Drive the decoder: one `Read` per requested length, recording each
read's result together with the tag observed afterwards. -/
def decodeAll (d : SecretStreamXCPDecoder) :
    List Nat → List (ReadResult × SecretStreamTag) × SecretStreamXCPDecoder
  | [] => ([], d)
  | l :: ls =>
      let r := d.Read l
      let rest := decodeAll r.2 ls
      ((r.1, r.2.Tag) :: rest.1, rest.2)

/-- The reads the round-trip is expected to produce: each message back
with its tag and no error, then the closing message with `io.EOF` (the
public tag enumeration has no final value, so the observed tag after the
closing frame is `Message`). -/
def expectedReads : List (List Nat × SecretStreamTag) → List Nat → List (ReadResult × SecretStreamTag)
  | [], last => [(⟨last, last.length, some .eof⟩, .Message)]
  | (m, t) :: rest, last => (⟨m, m.length, none⟩, t) :: expectedReads rest last

/-! ## Sample values for witnesses and counterexamples -/

/-- A sample 32-byte key. -/
def sampleKey : List Nat := List.replicate 32 7

/-- A sample 24-byte header. -/
def sampleHeader : List Nat := List.replicate 24 3

/-- An encoder on which `Close` has already been called (terminal flag set). -/
def closedEncoder : SecretStreamXCPEncoder :=
  ((MakeSecretStreamXCPEncoder sampleKey sampleHeader).Close).2

/-- A decoder whose terminal flag is set. -/
def terminalDecoder : SecretStreamXCPDecoder :=
  ⟨[], initState sampleKey sampleHeader, [], .Message, true⟩

/-- A fresh decoder whose source holds exactly one final-tagged frame. -/
def finalFrameDecoder : SecretStreamXCPDecoder :=
  ⟨[(ssPush (initState sampleKey sampleHeader) [104] [] cTagFinal).1],
   initState sampleKey sampleHeader, [], .Message, false⟩

/-- An encoder that has performed one `Write` after `SetAdditionData [9]`. -/
def adEncoderAfterWrite : SecretStreamXCPEncoder :=
  (((MakeSecretStreamXCPEncoder sampleKey sampleHeader).SetAdditionData [9]).Write [1]).2

/-- An 18-byte frame whose authenticator does not verify under the state
`(k := [], ctr := 0)` with empty associated data. -/
def failFrame : List Nat := [0, 5, 0, 0, 0, 0, 0, 0, 0, 0, 0, 0, 0, 0, 0, 0, 0, 0]

/-- A fresh decoder whose source holds exactly the bad frame `failFrame`. -/
def failFrameDecoder : SecretStreamXCPDecoder :=
  ⟨[failFrame], ⟨[], 0⟩, [], .Message, false⟩

/-- A fresh decoder whose source ends after three bytes (fewer than OVERHEAD). -/
def shortSourceDecoder : SecretStreamXCPDecoder :=
  ⟨[[1, 2, 3]], initState sampleKey sampleHeader, [], .Message, false⟩

/-! ## Helper lemmas -/

theorem macTag_length (st : StreamState) (ad m : List Nat) (ctag : Nat) :
    (macTag st ad m ctag).length = 16 := by
  simp [macTag]

theorem ssPush_length (st : StreamState) (m ad : List Nat) (ctag : Nat) :
    (ssPush st m ad ctag).1.length = m.length + cryptoSecretStreamXChaCha20Poly1305ABytes := by
  simp [ssPush, macTag_length, cryptoSecretStreamXChaCha20Poly1305ABytes]

theorem ssPull_ssPush (st : StreamState) (m ad : List Nat) (ctag : Nat) :
    ssPull st (ssPush st m ad ctag).1 ad = (some (m, ctag), st.next) := by
  have hl : (ssPush st m ad ctag).1.length - cryptoSecretStreamXChaCha20Poly1305ABytes
      = m.length := by
    rw [ssPush_length]; omega
  unfold ssPull
  rw [hl]
  simp only [ssPush, List.headD_cons, List.drop_succ_cons, List.drop_zero]
  rw [List.take_left, List.drop_left]
  simp

theorem sourceRead_bytes (src : ByteSource) (k : Nat) :
    (sourceRead src k).1.length + totalBytes (sourceRead src k).2.2 = totalBytes src := by
  cases src with
  | nil => simp [sourceRead, totalBytes]
  | cons ch rest =>
      simp only [sourceRead, totalBytes, List.map_cons, List.sum_cons]
      by_cases h : (ch.drop k).isEmpty = true
      · have h0 : (ch.drop k).length = 0 := by
          rw [List.isEmpty_iff] at h; simp [h]
        rw [List.length_drop] at h0
        rw [if_pos h]
        simp only [List.length_take]
        omega
      · rw [if_neg h]
        simp only [List.map_cons, List.sum_cons, List.length_take, List.length_drop]
        omega

theorem readAccumF_short (fuel : Nat) :
    ∀ (src : ByteSource) (c : List Nat) (l : Nat) (errFlag : Bool),
      l + totalBytes src < cryptoSecretStreamXChaCha20Poly1305ABytes →
      (readAccumF fuel src c l errFlag).1 = none := by
  induction fuel with
  | zero =>
      intro src c l e _
      simp [readAccumF]
  | succ n ih =>
      intro src c l e h
      have hlt : ¬ (cryptoSecretStreamXChaCha20Poly1305ABytes ≤ l) := by omega
      rw [readAccumF, if_neg hlt]
      cases e with
      | true => simp
      | false =>
          rw [if_neg (by simp)]
          rcases hsr : sourceRead src l with ⟨bytes, e2, s2⟩
          have hb := sourceRead_bytes src l
          rw [hsr] at hb
          cases bytes with
          | nil => simp
          | cons b bs =>
              simp only []
              apply ih
              simp only [List.length_cons] at hb ⊢
              omega

theorem framesOf_ne_nil (st : StreamState) (msgs : List (List Nat × SecretStreamTag))
    (last : List Nat) : framesOf st msgs last ≠ [] := by
  cases msgs <;> simp [framesOf, ssPush]

theorem toCtag_ne_final (t : SecretStreamTag) : t.toCtag ≠ cTagFinal := by
  cases t <;> decide

theorem fromCtag_toCtag (t : SecretStreamTag) : SecretStreamTag.fromCtag t.toCtag = t := by
  cases t <;> decide

theorem readFrameBytes_exact (f R : List Nat) (bl : Nat)
    (hlen : f.length = bl + cryptoSecretStreamXChaCha20Poly1305ABytes) :
    readFrameBytes [f ++ R] bl =
      (some (f, bl + cryptoSecretStreamXChaCha20Poly1305ABytes),
       if R.isEmpty then [] else [R]) := by
  have h1 : sourceRead [f ++ R] (bl + cryptoSecretStreamXChaCha20Poly1305ABytes)
      = (f, false, if R.isEmpty then [] else [R]) := by
    simp [sourceRead, List.take_left' hlen, List.drop_left' hlen]
  have h2 : listOverwrite
      (List.replicate (bl + cryptoSecretStreamXChaCha20Poly1305ABytes) 0) f = f := by
    have hd : (List.replicate (bl + cryptoSecretStreamXChaCha20Poly1305ABytes)
        (0 : Nat)).drop f.length = [] := by
      apply List.drop_eq_nil_of_le
      simp [hlen]
    rw [listOverwrite, hd, List.append_nil]
  rw [readFrameBytes]
  rw [h1]
  simp only []
  rw [h2]
  rw [readAccum, readAccumF, if_pos (by rw [hlen]; omega)]
  rw [hlen]

theorem readFrameBytes_single (f : List Nat) (bl : Nat)
    (hlen : f.length = bl + cryptoSecretStreamXChaCha20Poly1305ABytes) :
    readFrameBytes [f] bl =
      (some (f, bl + cryptoSecretStreamXChaCha20Poly1305ABytes), []) := by
  have h := readFrameBytes_exact f [] bl hlen
  rw [List.append_nil] at h
  simpa using h

theorem read_sealed_frame (d : SecretStreamXCPDecoder) (m R : List Nat) (ctag : Nat)
    (hf : d.final = false)
    (hsrc : d.src = [(ssPush d.state m d.ad ctag).1 ++ R]) :
    d.Read m.length =
      (⟨m, m.length, if ctag = cTagFinal then some .eof else none⟩,
       { d with
         src := if R.isEmpty then [] else [R]
         state := d.state.next
         tag := SecretStreamTag.fromCtag ctag
         final := decide (ctag = cTagFinal) }) := by
  have hlen := ssPush_length d.state m d.ad ctag
  rw [SecretStreamXCPDecoder.Read, if_neg (by simp [hf])]
  rw [hsrc, readFrameBytes_exact _ _ _ hlen]
  simp only []
  have ht : (ssPush d.state m d.ad ctag).1.take
      (m.length + cryptoSecretStreamXChaCha20Poly1305ABytes) = (ssPush d.state m d.ad ctag).1 := by
    rw [← hlen, List.take_length]
  rw [ht, ssPull_ssPush]
  simp only [Nat.add_sub_cancel]

theorem encodeAll_out (msgs : List (List Nat × SecretStreamTag)) :
    ∀ (e : SecretStreamXCPEncoder) (last : List Nat),
      e.final = false → e.ad = [] →
      (encodeAll e msgs last).out = e.out ++ framesOf e.state msgs last := by
  induction msgs with
  | nil =>
      intro e last hf ha
      rw [encodeAll, SecretStreamXCPEncoder.WriteAndClose, if_neg (by simp [hf])]
      rw [framesOf, ha]
  | cons p rest ih =>
      intro e last hf ha
      obtain ⟨m, t⟩ := p
      rw [encodeAll]
      rw [ih _ last (by simp [SecretStreamXCPEncoder.SetTag, SecretStreamXCPEncoder.Write, hf])
        (by simp [SecretStreamXCPEncoder.SetTag, SecretStreamXCPEncoder.Write, hf, ha])]
      rw [SecretStreamXCPEncoder.SetTag, SecretStreamXCPEncoder.Write]
      simp only [hf, Bool.false_eq_true, if_false, ha, framesOf, ssPush, List.append_assoc]

theorem decodeAll_frames (msgs : List (List Nat × SecretStreamTag)) :
    ∀ (d : SecretStreamXCPDecoder) (last : List Nat),
      d.final = false → d.ad = [] →
      d.src = [framesOf d.state msgs last] →
      (decodeAll d (msgs.map (fun p => p.1.length) ++ [last.length])).1 =
        expectedReads msgs last := by
  induction msgs with
  | nil =>
      intro d last hf ha hsrc
      have hsrc' : d.src = [(ssPush d.state last d.ad cTagFinal).1 ++ []] := by
        rw [hsrc, framesOf, ha, List.append_nil]
      have hread := read_sealed_frame d last [] cTagFinal hf hsrc'
      simp only [List.map_nil, List.nil_append, decodeAll, hread, SecretStreamXCPDecoder.Tag,
        expectedReads, SecretStreamTag.fromCtag, cTagFinal, cTagPush, cTagRekey]
      simp
  | cons p rest ih =>
      intro d last hf ha hsrc
      obtain ⟨m, t⟩ := p
      have hR := framesOf_ne_nil (ssPush d.state m [] t.toCtag).2 rest last
      have hsrc' : d.src = [(ssPush d.state m d.ad t.toCtag).1 ++
          framesOf (ssPush d.state m [] t.toCtag).2 rest last] := by
        rw [hsrc, framesOf, ha]
      have hread := read_sealed_frame d m _ t.toCtag hf hsrc'
      rw [if_neg (toCtag_ne_final t), fromCtag_toCtag] at hread
      have hRE : (framesOf (ssPush d.state m [] t.toCtag).2 rest last).isEmpty = false := by
        simp [List.isEmpty_iff, hR]
      rw [hRE] at hread
      have hdf : decide (t.toCtag = cTagFinal) = false := decide_eq_false (toCtag_ne_final t)
      rw [hdf] at hread
      simp only [List.map_cons, List.cons_append, decodeAll, hread, expectedReads]
      simp only [Bool.false_eq_true, if_false, List.append_eq]
      congr 1
      exact ih _ last (by simp) (by simp [ha]) (by simp [ssPush])

/-! ## Claims -/

/-- C5: for all plaintext sequences and tag assignments, writing each
message with the encoder (the closing one via `WriteAndClose`) and then
reading in order with a decoder constructed from the same key and the
encoder's header yields the original bytes and the original tags, with
the decoder reporting end-of-stream (`io.EOF`) exactly after the closing
frame and not before (every earlier read returns no error).  `Close`
corresponds to the instance `last = []` of the closing frame. -/
theorem secretstream_round_trip (key hdr : List Nat)
    (msgs : List (List Nat × SecretStreamTag)) (last : List Nat)
    (hh : hdr.length = cryptoSecretStreamXChaCha20Poly1305HeaderBytes) :
    (MakeSecretStreamXCPDecoder key
        [(encodeAll (MakeSecretStreamXCPEncoder key hdr) msgs last).out] hdr).toOption.map
      (fun d0 => (decodeAll d0 (msgs.map (fun p => p.1.length) ++ [last.length])).1)
    = some (expectedReads msgs last) := by
  rw [MakeSecretStreamXCPDecoder, if_pos hh]
  simp only [Except.toOption, Option.map_some]
  refine congrArg some ?_
  refine decodeAll_frames msgs _ last rfl rfl ?_
  rw [encodeAll_out msgs (MakeSecretStreamXCPEncoder key hdr) last rfl rfl]
  simp [MakeSecretStreamXCPEncoder]

/-- Witness for C5 at a concrete key, header, two-message stream. -/
theorem secretstream_round_trip_witness :
    sampleHeader.length = cryptoSecretStreamXChaCha20Poly1305HeaderBytes ∧
    (MakeSecretStreamXCPDecoder sampleKey
        [(encodeAll (MakeSecretStreamXCPEncoder sampleKey sampleHeader)
            [([104, 105], .Sync)] [119]).out] sampleHeader).toOption.map
      (fun d0 => (decodeAll d0
        ([([104, 105], (.Sync : SecretStreamTag))].map (fun p => p.1.length) ++
          [[119].length])).1)
    = some (expectedReads [([104, 105], .Sync)] [119]) :=
  ⟨by decide, secretstream_round_trip sampleKey sampleHeader [([104, 105], .Sync)] [119]
    (by decide)⟩

/-- C1 (amended): with the terminal flag set, `Write`, `WriteAndClose`
and `Read` fail with `ErrInvalidState` and leave their receiver
unchanged; `Close`, however, performs no terminal-flag check: it always
seals and writes another final frame and returns no error. -/
theorem terminal_flag_rejection (e : SecretStreamXCPEncoder) (d : SecretStreamXCPDecoder)
    (b : List Nat) (bl : Nat) (he : e.final = true) (hd : d.final = true) :
    e.Write b = ((0, some .invalidState), e) ∧
    e.WriteAndClose b = ((0, some .invalidState), e) ∧
    d.Read bl = (⟨[], 0, some .invalidState⟩, d) ∧
    (e.Close).1 = none ∧
    (e.Close).2.out = e.out ++ (ssPush e.state [] e.ad cTagFinal).1 := by
  refine ⟨?_, ?_, ?_, ?_, ?_⟩
  · rw [SecretStreamXCPEncoder.Write, if_pos he]
  · rw [SecretStreamXCPEncoder.WriteAndClose, if_pos he]
  · rw [SecretStreamXCPDecoder.Read, if_pos hd]
  · rfl
  · rfl

/-- Witness for C1 (amended) on concrete terminal encoder and decoder. -/
theorem terminal_flag_rejection_witness :
    closedEncoder.final = true ∧ terminalDecoder.final = true ∧
    (closedEncoder.Write [1] = ((0, some .invalidState), closedEncoder) ∧
     closedEncoder.WriteAndClose [1] = ((0, some .invalidState), closedEncoder) ∧
     terminalDecoder.Read 0 = (⟨[], 0, some .invalidState⟩, terminalDecoder) ∧
     (closedEncoder.Close).1 = none ∧
     (closedEncoder.Close).2.out
       = closedEncoder.out ++ (ssPush closedEncoder.state [] closedEncoder.ad cTagFinal).1) :=
  ⟨by decide, by decide,
   terminal_flag_rejection closedEncoder terminalDecoder [1] 0 (by decide) (by decide)⟩

/-- C1 (counterexample to the claim as stated): after a first `Close` the
terminal flag is set, yet a second `Close` does not fail with
`ErrInvalidState` - it returns no error and writes a second 17-byte final
frame (the sink grows from 17 to 34 bytes). -/
theorem close_after_close_not_rejected :
    closedEncoder.final = true ∧
    (closedEncoder.Close).1 = none ∧
    (closedEncoder.Close).1 ≠ some SSErr.invalidState ∧
    closedEncoder.out.length = 17 ∧
    (closedEncoder.Close).2.out.length = 34 := by
  decide

/-- C2 (evaluation at the failing inputs): the assembly loop does not
read `L + OVERHEAD` bytes appending into the scratch buffer.  First
conjunct: with `L = 1` and the 18 source bytes arriving as a 10-byte
chunk then an 8-byte chunk, the retry reads into `c[:l]` and the
assembled buffer starts with the second chunk, the first chunk's first
eight bytes having been overwritten.  Second conjunct: the assembled
buffer is not the first 18 source bytes.  Third conjunct: with the 18
bytes arriving as a 17-byte chunk then a 1-byte chunk, the loop stops as
soon as `l = 17 = OVERHEAD`, leaving the 18th byte unread in the
source. -/
theorem read_loop_overwrites_and_stops_early :
    readFrameBytes [[1, 2, 3, 4, 5, 6, 7, 8, 9, 10], [11, 12, 13, 14, 15, 16, 17, 18]] 1
      = (some ([11, 12, 13, 14, 15, 16, 17, 18, 9, 10, 0, 0, 0, 0, 0, 0, 0, 0], 18), []) ∧
    ([11, 12, 13, 14, 15, 16, 17, 18, 9, 10, 0, 0, 0, 0, 0, 0, 0, 0] : List Nat)
      ≠ [1, 2, 3, 4, 5, 6, 7, 8, 9, 10] ++ [11, 12, 13, 14, 15, 16, 17, 18] ∧
    readFrameBytes [[1, 2, 3, 4, 5, 6, 7, 8, 9, 10, 11, 12, 13, 14, 15, 16, 17], [99]] 1
      = (some ([1, 2, 3, 4, 5, 6, 7, 8, 9, 10, 11, 12, 13, 14, 15, 16, 17, 0], 17), [[99]]) := by
  decide

/-- C3 (amended): after reading a frame sealed with the final C tag the
decoder signals end-of-stream (`io.EOF` alongside the byte count) and
sets its terminal flag, but the last-observed tag it reports is
`Message`: the public tag enumeration has no Final value, and `fromCtag`
maps the final C tag to `Message` through its default case. -/
theorem read_final_frame_eof_and_message_tag (d : SecretStreamXCPDecoder) (m : List Nat)
    (hf : d.final = false)
    (hsrc : d.src = [(ssPush d.state m d.ad cTagFinal).1]) :
    d.Read m.length = (⟨m, m.length, some .eof⟩,
      { d with
        src := []
        state := d.state.next
        tag := .Message
        final := true }) := by
  have hsrc' : d.src = [(ssPush d.state m d.ad cTagFinal).1 ++ []] := by
    rw [hsrc, List.append_nil]
  have hread := read_sealed_frame d m [] cTagFinal hf hsrc'
  simpa [SecretStreamTag.fromCtag, cTagFinal, cTagPush, cTagRekey] using hread

/-- Witness for C3 (amended) on a concrete final frame. -/
theorem read_final_frame_eof_and_message_tag_witness :
    finalFrameDecoder.final = false ∧
    finalFrameDecoder.src
      = [(ssPush finalFrameDecoder.state [104] finalFrameDecoder.ad cTagFinal).1] ∧
    finalFrameDecoder.Read ([104] : List Nat).length
      = (⟨[104], ([104] : List Nat).length, some .eof⟩,
         { finalFrameDecoder with
           src := []
           state := finalFrameDecoder.state.next
           tag := .Message
           final := true }) :=
  ⟨by decide, by decide,
   read_final_frame_eof_and_message_tag finalFrameDecoder [104] (by decide) (by decide)⟩

/-- C3 (counterexample to the claim as stated): decoding the stream
produced by `WriteAndClose` signals end-of-stream, but `Tag()` afterwards
returns `Message`, not a Final value - indeed `fromCtag` sends the final
C tag to `Message`, so no read can ever leave the tag `Final`. -/
theorem final_tag_not_observable :
    (MakeSecretStreamXCPDecoder sampleKey
        [((MakeSecretStreamXCPEncoder sampleKey sampleHeader).WriteAndClose [104, 105]).2.out]
        sampleHeader).toOption.map
      (fun d0 => ((d0.Read 2).1.err, (d0.Read 2).2.Tag, (d0.Read 2).2.final))
    = some (some .eof, .Message, true) ∧
    SecretStreamTag.fromCtag cTagFinal = .Message := by
  decide

/-- C4 (amended): associated data persists across operations: `Write`,
`WriteAndClose`, `Close` and `Read` all leave the stored associated data
unchanged, so it applies to every subsequent seal/open until replaced by
another `SetAdditionData` call. -/
theorem ad_persists_across_operations (e : SecretStreamXCPEncoder)
    (d : SecretStreamXCPDecoder) (b : List Nat) (bl : Nat) :
    ((e.Write b).2).ad = e.ad ∧ ((e.WriteAndClose b).2).ad = e.ad ∧
    ((e.Close).2).ad = e.ad ∧ ((d.Read bl).2).ad = d.ad := by
  refine ⟨?_, ?_, ?_, ?_⟩
  · rw [SecretStreamXCPEncoder.Write]
    split <;> rfl
  · rw [SecretStreamXCPEncoder.WriteAndClose]
    split <;> rfl
  · rfl
  · rw [SecretStreamXCPDecoder.Read]
    split
    · rfl
    · split
      · rfl
      · split <;> rfl

/-- C4 (counterexample to the claim as stated): associated data set once
is still present after the write that consumed it, and the next write
seals with that same associated data, not with empty associated data. -/
theorem ad_not_cleared_after_write :
    adEncoderAfterWrite.ad = [9] ∧
    ((adEncoderAfterWrite.Write [2]).2).out
      = adEncoderAfterWrite.out ++ (ssPush adEncoderAfterWrite.state [2] [9] cTagMessage).1 ∧
    (ssPush adEncoderAfterWrite.state [2] [9] cTagMessage).1
      ≠ (ssPush adEncoderAfterWrite.state [2] [] cTagMessage).1 := by
  decide

/-- C6: a non-terminal `Write` seals the plaintext with the pending
associated data and pending tag, produces a frame of exactly
`len(b) + OVERHEAD` bytes, appends it in full to the sink, and returns
that frame length with no error. -/
theorem write_seals_full_frame (e : SecretStreamXCPEncoder) (b : List Nat)
    (hf : e.final = false) :
    e.Write b = ((b.length + cryptoSecretStreamXChaCha20Poly1305ABytes, none),
      { e with
        out := e.out ++ (ssPush e.state b e.ad e.tag.toCtag).1
        state := e.state.next }) ∧
    (ssPush e.state b e.ad e.tag.toCtag).1.length
      = b.length + cryptoSecretStreamXChaCha20Poly1305ABytes := by
  refine ⟨?_, ssPush_length e.state b e.ad e.tag.toCtag⟩
  rw [SecretStreamXCPEncoder.Write, if_neg (by simp [hf])]
  simp only [ssPush]
  simp [macTag_length, cryptoSecretStreamXChaCha20Poly1305ABytes]

/-- Witness for C6 on a fresh encoder and a two-byte plaintext. -/
theorem write_seals_full_frame_witness :
    (MakeSecretStreamXCPEncoder sampleKey sampleHeader).final = false ∧
    ((MakeSecretStreamXCPEncoder sampleKey sampleHeader).Write [1, 2]
      = ((([1, 2] : List Nat).length + cryptoSecretStreamXChaCha20Poly1305ABytes, none),
        { MakeSecretStreamXCPEncoder sampleKey sampleHeader with
          out := (MakeSecretStreamXCPEncoder sampleKey sampleHeader).out ++
            (ssPush (MakeSecretStreamXCPEncoder sampleKey sampleHeader).state [1, 2]
              (MakeSecretStreamXCPEncoder sampleKey sampleHeader).ad
              (MakeSecretStreamXCPEncoder sampleKey sampleHeader).tag.toCtag).1
          state := (MakeSecretStreamXCPEncoder sampleKey sampleHeader).state.next }) ∧
     (ssPush (MakeSecretStreamXCPEncoder sampleKey sampleHeader).state [1, 2]
        (MakeSecretStreamXCPEncoder sampleKey sampleHeader).ad
        (MakeSecretStreamXCPEncoder sampleKey sampleHeader).tag.toCtag).1.length
      = ([1, 2] : List Nat).length + cryptoSecretStreamXChaCha20Poly1305ABytes) :=
  ⟨by decide, write_seals_full_frame (MakeSecretStreamXCPEncoder sampleKey sampleHeader)
    [1, 2] (by decide)⟩

/-- C7: a source that can deliver fewer than OVERHEAD bytes in total
before ending makes `Read` fail with `ErrDecryptSS` (count 0 together
with the error, never a silent zero-byte success).  The chunk
nonemptiness hypothesis records the reader convention of the source
model. -/
theorem truncated_source_read_fails (d : SecretStreamXCPDecoder) (bl : Nat)
    (hf : d.final = false)
    (hshort : totalBytes d.src < cryptoSecretStreamXChaCha20Poly1305ABytes)
    (_hchunks : ∀ ch ∈ d.src, ch ≠ []) :
    (d.Read bl).1 = ⟨[], 0, some .decryptSS⟩ := by
  rw [SecretStreamXCPDecoder.Read, if_neg (by simp [hf])]
  rcases hr : readFrameBytes d.src bl with ⟨o, s2⟩
  have ho : o = none := by
    have hb := sourceRead_bytes d.src (bl + cryptoSecretStreamXChaCha20Poly1305ABytes)
    rw [readFrameBytes, readAccum] at hr
    have hnone := readAccumF_short
      (totalBytes (sourceRead d.src (bl + cryptoSecretStreamXChaCha20Poly1305ABytes)).2.2 + 1)
      (sourceRead d.src (bl + cryptoSecretStreamXChaCha20Poly1305ABytes)).2.2
      (listOverwrite
        (List.replicate (bl + cryptoSecretStreamXChaCha20Poly1305ABytes) 0)
        (sourceRead d.src (bl + cryptoSecretStreamXChaCha20Poly1305ABytes)).1)
      (sourceRead d.src (bl + cryptoSecretStreamXChaCha20Poly1305ABytes)).1.length
      (sourceRead d.src (bl + cryptoSecretStreamXChaCha20Poly1305ABytes)).2.1
      (by omega)
    rw [hr] at hnone
    exact hnone
  subst ho
  rfl

/-- Witness for C7 on a three-byte source. -/
theorem truncated_source_read_fails_witness :
    shortSourceDecoder.final = false ∧
    totalBytes shortSourceDecoder.src < cryptoSecretStreamXChaCha20Poly1305ABytes ∧
    (∀ ch ∈ shortSourceDecoder.src, ch ≠ []) ∧
    (shortSourceDecoder.Read 5).1 = ⟨[], 0, some .decryptSS⟩ :=
  ⟨by decide, by decide, by decide,
   truncated_source_read_fails shortSourceDecoder 5 (by decide) (by decide) (by decide)⟩

/-- C8: constructing a decoder with a header whose length is not the
protocol's header-size constant fails with `ErrInvalidHeader`, for every
key and every source - in particular before any ciphertext frame is read
or processed (the source is not touched). -/
theorem decoder_rejects_bad_header (key : List Nat) (src : ByteSource) (hdr : List Nat)
    (h : hdr.length ≠ cryptoSecretStreamXChaCha20Poly1305HeaderBytes) :
    MakeSecretStreamXCPDecoder key src hdr = .error .invalidHeader := by
  rw [MakeSecretStreamXCPDecoder, if_neg h]

/-- Witness for C8 with a three-byte header. -/
theorem decoder_rejects_bad_header_witness :
    ([1, 2, 3] : List Nat).length ≠ cryptoSecretStreamXChaCha20Poly1305HeaderBytes ∧
    MakeSecretStreamXCPDecoder sampleKey [] [1, 2, 3] = .error .invalidHeader :=
  ⟨by decide, decoder_rejects_bad_header sampleKey [] [1, 2, 3] (by decide)⟩

/-- C9: when the open of a fully assembled frame of `bl + OVERHEAD` bytes
fails, `Read` returns the decrypt-failure error together with
`n = l - OVERHEAD = bl`, and still updates the last-observed tag from the
(zero-initialised, unauthenticated) C tag variable - it becomes
`fromCtag 0 = Message` whatever it was before. -/
theorem read_open_failure_count_and_tag (d : SecretStreamXCPDecoder) (c : List Nat)
    (bl : Nat) (hf : d.final = false) (hsrc : d.src = [c])
    (hlen : c.length = bl + cryptoSecretStreamXChaCha20Poly1305ABytes)
    (hfail : (ssPull d.state c d.ad).1 = none) :
    d.Read bl = (⟨[], bl, some .decryptSS⟩,
      { d with
        src := []
        state := (ssPull d.state c d.ad).2
        tag := SecretStreamTag.fromCtag 0 }) := by
  rw [SecretStreamXCPDecoder.Read, if_neg (by simp [hf])]
  rw [hsrc, readFrameBytes_single c bl hlen]
  have ht : c.take (bl + cryptoSecretStreamXChaCha20Poly1305ABytes) = c := by
    rw [← hlen, List.take_length]
  dsimp only
  rw [ht]
  rcases hp : ssPull d.state c d.ad with ⟨o, st2⟩
  rw [hp] at hfail
  cases o with
  | some v => simp at hfail
  | none =>
      dsimp only
      rw [Nat.add_sub_cancel]

/-- Witness for C9 on a concrete bad frame. -/
theorem read_open_failure_count_and_tag_witness :
    failFrameDecoder.final = false ∧
    failFrameDecoder.src = [failFrame] ∧
    failFrame.length = 1 + cryptoSecretStreamXChaCha20Poly1305ABytes ∧
    (ssPull failFrameDecoder.state failFrame failFrameDecoder.ad).1 = none ∧
    failFrameDecoder.Read 1 = (⟨[], 1, some .decryptSS⟩,
      { failFrameDecoder with
        src := []
        state := (ssPull failFrameDecoder.state failFrame failFrameDecoder.ad).2
        tag := SecretStreamTag.fromCtag 0 }) :=
  ⟨by decide, by decide, by decide, by decide,
   read_open_failure_count_and_tag failFrameDecoder failFrame 1 (by decide) (by decide)
     (by decide) (by decide)⟩

/-- C10: converting each of the three public tag values through the C tag
and back is the identity, and every other C tag value - in particular the
primitive's final tag - converts back to `Message`. -/
theorem tag_ctag_conversion (t : SecretStreamTag) (c : Nat)
    (h1 : c ≠ cTagPush) (h2 : c ≠ cTagRekey) :
    SecretStreamTag.fromCtag t.toCtag = t ∧ SecretStreamTag.fromCtag c = .Message := by
  refine ⟨fromCtag_toCtag t, ?_⟩
  rw [SecretStreamTag.fromCtag, if_neg h1, if_neg h2]

/-- Witness for C10 at `Sync` and at the final C tag value 3. -/
theorem tag_ctag_conversion_witness :
    ((3 : Nat) ≠ cTagPush ∧ (3 : Nat) ≠ cTagRekey) ∧
    (SecretStreamTag.fromCtag (SecretStreamTag.toCtag .Sync) = .Sync ∧
     SecretStreamTag.fromCtag 3 = .Message) :=
  ⟨⟨by decide, by decide⟩, tag_ctag_conversion .Sync 3 (by decide) (by decide)⟩
